import Mathlib

/-!
# Verification of the disclaude-gate approval broker and risk classifier

Shallow embedding of the two core components of the repository:

* `hooks/disclaude_gate_hook.py` — the risk classifier for shell commands
  (`_needs_discord_approval_bash`, `_parse_rm_targets`, `_all_git_recoverable`,
  `DESTRUCTIVE_COMMANDS`, `DESTRUCTIVE_GIT_PATTERNS`);
* `src/server.py` — the approval broker (the `PendingRequest` registry, the
  Discord view callbacks that resolve requests, `handle_approval`,
  `handle_stop`, and the session-thread router `_get_or_create_thread`,
  `_find_existing_thread`, `_archive_thread`).

External collaborators (the git subprocess calls, `shlex.split`, the Discord
channel, tmux) are modelled as explicit oracle inputs; every query the Python
code makes is a field lookup on the oracle, with `Option` distinguishing a
raised exception (`none`) from a completed subprocess (`some` result with its
return code and stdout).  The asyncio concurrency of the broker is modelled by
sequences of resolver actions applied atomically between the suspension points
of the event loop, which matches the source because every callback mutates the
registry before its first `await`.
-/

/-- Python `\s` / `str.strip()` whitespace (ASCII part): space, TAB, LF, CR,
VT (0x0b), FF (0x0c). -/
def isPySpace (c : Char) : Bool :=
  c == ' ' || c == '\t' || c == '\n' || c == '\r' ||
  c == Char.ofNat 11 || c == Char.ofNat 12

/-- Python regex `\w` word character (ASCII part): alphanumeric or underscore. -/
def isWordChar (c : Char) : Bool :=
  c.isAlphanum || c == '_'

/-- Python `str.strip()`: drop leading and trailing whitespace. -/
def pyStrip (s : String) : String :=
  String.mk (((s.data.dropWhile isPySpace).reverse.dropWhile isPySpace).reverse)

/-- `s.startswith(pre)` (character-level, so that it evaluates by kernel
reduction). -/
def strStartsWith (s pre : String) : Bool :=
  List.isPrefixOf pre.data s.data

/-- `c in s` for a single character. -/
def strContainsChar (s : String) (c : Char) : Bool :=
  s.data.contains c

/-- `"x".take n` at the character level (Python slicing `s[:n]`). -/
def strTake (s : String) (n : Nat) : String :=
  String.mk (s.data.take n)

/-- Helper for `pySplitWs`: accumulate the current word (reversed). -/
def pySplitWsAux : List Char → List Char → List String
  | [], [] => []
  | [], acc => [String.mk acc.reverse]
  | c :: rest, acc =>
    if isPySpace c then
      if acc.isEmpty then pySplitWsAux rest []
      else String.mk acc.reverse :: pySplitWsAux rest []
    else pySplitWsAux rest (c :: acc)

/-- Python `str.split()` with no argument: split on runs of whitespace,
discarding empty parts. -/
def pySplitWs (s : String) : List String :=
  pySplitWsAux s.data []

/-- Helper for `splitSegments`: scan characters, cutting at the separator that
`re.split` would match first (`||` is tried before `|` at the same position). -/
def splitSegmentsAux : List Char → List Char → List String
  | [], acc => [String.mk acc.reverse]
  | '|' :: '|' :: rest, acc => String.mk acc.reverse :: splitSegmentsAux rest []
  | '&' :: '&' :: rest, acc => String.mk acc.reverse :: splitSegmentsAux rest []
  | ';' :: rest, acc => String.mk acc.reverse :: splitSegmentsAux rest []
  | '|' :: rest, acc => String.mk acc.reverse :: splitSegmentsAux rest []
  | '\n' :: rest, acc => String.mk acc.reverse :: splitSegmentsAux rest []
  | c :: rest, acc => splitSegmentsAux rest (c :: acc)

/-- `re.split(r"\|\||&&|;|\||\n", command)` from `_needs_discord_approval_bash`:
split a command line on the compound-command separators. -/
def splitSegments (command : String) : List String :=
  splitSegmentsAux command.data []

/-- `os.path.basename` (POSIX): the part after the last `/`. -/
def basename (s : String) : String :=
  String.mk ((s.data.reverse.takeWhile (fun c => c != '/')).reverse)

/-! ## The DESTRUCTIVE_GIT_PATTERNS regexes

Each Python pattern is compiled by hand into a positional matcher
`Option Char → List Char → Bool` — "does the pattern match starting here",
where the first argument is the character just before the position (needed for
`\b`) — and `reSearch` tries every position, which is `re.search` semantics.
`\s+` is matched greedily; this is equivalent to Python's backtracking here
because in every pattern `\s+` is followed either by a literal starting with a
non-space character, by `.*` (and `.` does not match a newline, so positions
reachable with a partial munch are also reachable after the full munch), or by
a negative lookahead, for which the dedicated `wsThenAvoiding` matcher keeps
the full nondeterminism. -/

/-- `\b`: word boundary between the previous character and the rest. -/
def wordBoundary (prev : Option Char) (rest : List Char) : Bool :=
  (match prev with | none => false | some c => isWordChar c) !=
  (match rest with | [] => false | c :: _ => isWordChar c)

/-- Consume an exact literal, returning the remainder. -/
def eatLit : List Char → List Char → Option (List Char)
  | [], rest => some rest
  | _ :: _, [] => none
  | c :: cs, d :: rest => if c == d then eatLit cs rest else none

/-- Consume `\s+` greedily (at least one whitespace character). -/
def eatWsPlus : List Char → Option (List Char)
  | [] => none
  | c :: cs => if isPySpace c then some (cs.dropWhile isPySpace) else none

/-- Consume `git\s+` (the common prefix of every destructive-git pattern,
minus the leading `\b`). -/
def afterGitWs (rest : List Char) : Option (List Char) :=
  match eatLit "git".data rest with
  | none => none
  | some r => eatWsPlus r

/-- Match a literal that ends in a word character, followed by `\b`
(end of input or a non-word character). -/
def litThenWordBreak (lit : List Char) (rest : List Char) : Bool :=
  match eatLit lit rest with
  | none => false
  | some [] => true
  | some (c :: _) => !isWordChar c

/-- `.*` followed by `tail`: try `tail` at every position reachable without
crossing a newline (Python `.` does not match `\n`). -/
def dotStarScan (tail : List Char → Bool) : List Char → Bool
  | [] => tail []
  | c :: cs => tail (c :: cs) || (c != '\n' && dotStarScan tail cs)

/-- `\s+(?!bad)`: consume at least one whitespace character such that the
remainder does not start with `bad` (full backtracking over how much
whitespace `\s+` consumes, as in Python). -/
def wsThenAvoiding (bad : List Char) : List Char → Bool
  | [] => false
  | c :: cs => isPySpace c && (!(List.isPrefixOf bad cs) || wsThenAvoiding bad cs)

/-- `-[dD]\b` (used after `.*` in the branch-delete pattern). -/
def dashDLetterBreak : List Char → Bool
  | '-' :: c :: rest =>
    (c == 'd' || c == 'D') &&
    (match rest with | [] => true | d :: _ => !isWordChar d)
  | _ => false

/-- Pattern `\bgit\s+clean\b`. -/
def atGitClean (prev : Option Char) (rest : List Char) : Bool :=
  wordBoundary prev rest &&
  match afterGitWs rest with
  | none => false
  | some r => litThenWordBreak "clean".data r

/-- Pattern `\bgit\s+reset\s+--hard\b`. -/
def atGitResetHard (prev : Option Char) (rest : List Char) : Bool :=
  wordBoundary prev rest &&
  match afterGitWs rest with
  | none => false
  | some r1 =>
    match eatLit "reset".data r1 with
    | none => false
    | some r2 =>
      match eatWsPlus r2 with
      | none => false
      | some r3 => litThenWordBreak "--hard".data r3

/-- Pattern `\bgit\s+push\s+.*--force\b`. -/
def atGitPushForce (prev : Option Char) (rest : List Char) : Bool :=
  wordBoundary prev rest &&
  match afterGitWs rest with
  | none => false
  | some r1 =>
    match eatLit "push".data r1 with
    | none => false
    | some r2 =>
      match eatWsPlus r2 with
      | none => false
      | some r3 => dotStarScan (litThenWordBreak "--force".data) r3

/-- Pattern `\bgit\s+push\s+.*-f\b`. -/
def atGitPushF (prev : Option Char) (rest : List Char) : Bool :=
  wordBoundary prev rest &&
  match afterGitWs rest with
  | none => false
  | some r1 =>
    match eatLit "push".data r1 with
    | none => false
    | some r2 =>
      match eatWsPlus r2 with
      | none => false
      | some r3 => dotStarScan (litThenWordBreak "-f".data) r3

/-- Pattern `\bgit\s+branch\s+.*-[dD]\b`. -/
def atGitBranchD (prev : Option Char) (rest : List Char) : Bool :=
  wordBoundary prev rest &&
  match afterGitWs rest with
  | none => false
  | some r1 =>
    match eatLit "branch".data r1 with
    | none => false
    | some r2 =>
      match eatWsPlus r2 with
      | none => false
      | some r3 => dotStarScan dashDLetterBreak r3

/-- Pattern `\bgit\s+checkout\s+--\s` (discarding checkout). -/
def atGitCheckoutDiscard (prev : Option Char) (rest : List Char) : Bool :=
  wordBoundary prev rest &&
  match afterGitWs rest with
  | none => false
  | some r1 =>
    match eatLit "checkout".data r1 with
    | none => false
    | some r2 =>
      match eatWsPlus r2 with
      | none => false
      | some r3 =>
        match eatLit "--".data r3 with
        | none => false
        | some [] => false
        | some (c :: _) => isPySpace c

/-- Pattern `\bgit\s+restore\s+(?!--staged)` (discarding restore). -/
def atGitRestore (prev : Option Char) (rest : List Char) : Bool :=
  wordBoundary prev rest &&
  match afterGitWs rest with
  | none => false
  | some r1 =>
    match eatLit "restore".data r1 with
    | none => false
    | some r2 => wsThenAvoiding "--staged".data r2

/-- `re.search`: try the positional matcher at every position. -/
def searchAt (atM : Option Char → List Char → Bool) : Option Char → List Char → Bool
  | prev, [] => atM prev []
  | prev, c :: cs => atM prev (c :: cs) || searchAt atM (some c) cs

/-- `re.search(pattern, s)` over a whole string. -/
def reSearch (atM : Option Char → List Char → Bool) (s : String) : Bool :=
  searchAt atM none s.data

/-- `any(re.search(p, s) for p in DESTRUCTIVE_GIT_PATTERNS)`. -/
def matchesDestructiveGit (s : String) : Bool :=
  reSearch atGitClean s || reSearch atGitResetHard s || reSearch atGitPushForce s ||
  reSearch atGitPushF s || reSearch atGitBranchD s || reSearch atGitCheckoutDiscard s ||
  reSearch atGitRestore s

/-! ## The git oracle and the recoverability check -/

/-- The outcome of a completed `subprocess.run` of a git command: its return
code and captured stdout.  A raised exception is modelled by the surrounding
`Option` being `none`. -/
structure GitProc where
  returncode : Int
  stdout : String
deriving DecidableEq

/-- Oracle for the four git queries that `_all_git_recoverable` issues.
`none` models `subprocess.run` raising (e.g. `TimeoutExpired`, `OSError`);
`some p` a completed run with return code and stdout `p`. -/
structure GitEnv where
  insideWorkTree : Option GitProc
  showToplevel : Option GitProc
  lsFilesOthers : String → Option GitProc
  lsFiles : String → Option GitProc

/-- `DESTRUCTIVE_COMMANDS` from the hook. -/
def DESTRUCTIVE_COMMANDS : List String := ["rm", "rmdir", "shred", "unlink"]

/-- Shell-expansion characters that make a path unverifiable:
`("$", "`", "(", ")")` in the source (the second is the backquote). -/
def EXPANSION_CHARS : List Char := ['$', Char.ofNat 96, '(', ')']

/-- Helper for `normpath`: CPython's component loop — append a component
unless it is a `..` that cancels against a previous real component. -/
def normpathComps (initialSlashes : Nat) (comps : List String) : List String :=
  comps.foldl
    (fun acc comp =>
      if comp != ".." || (initialSlashes == 0 && acc.isEmpty) ||
          (acc.getLast? == some "..") then
        acc ++ [comp]
      else if !acc.isEmpty then acc.dropLast
      else acc)
    []

/-- `"p".split("/")` (keeps empty components, as Python `str.split(sep)`). -/
def splitOnSlashAux : List Char → List Char → List String
  | [], acc => [String.mk acc.reverse]
  | '/' :: rest, acc => String.mk acc.reverse :: splitOnSlashAux rest []
  | c :: rest, acc => splitOnSlashAux rest (c :: acc)

/-- `"/".join(comps)`. -/
def joinSlash : List String → String
  | [] => ""
  | [s] => s
  | s :: rest => s ++ "/" ++ joinSlash rest

/-- `os.path.normpath` (POSIX), as in CPython `posixpath.normpath`. -/
def normpath (p : String) : String :=
  if p == "" then "." else
  let initialSlashes : Nat :=
    if strStartsWith p "//" && !strStartsWith p "///" then 2
    else if strStartsWith p "/" then 1 else 0
  let comps := (splitOnSlashAux p.data []).filter (fun c => c != "" && c != ".")
  let res := String.mk (List.replicate initialSlashes '/') ++
    joinSlash (normpathComps initialSlashes comps)
  if res == "" then "." else res

/-- The per-target body of the `for path in paths` loop of
`_all_git_recoverable`: `false` means the loop would `return False` at this
target.  `root?` is the already-computed `repo_root` (`none` for Python
`None`; note the source also treats an *empty* root string as falsy). -/
def pathRecoverableCheck (g : GitEnv) (root? : Option String) (path : String) : Bool :=
  if path.data.any (fun c => EXPANSION_CHARS.contains c) then false
  else if strStartsWith path "/" &&
      (match root? with
       | some r =>
         r != "" &&
         (let resolved := normpath path
          !(strStartsWith resolved (r ++ "/")) && resolved != r)
       | none => false) then false
  else
    match g.lsFilesOthers path with
    | none => false
    | some p =>
      if p.returncode == 0 && pyStrip p.stdout != "" then false
      else
        match g.lsFiles path with
        | none => false
        | some _ => true

/-- `_all_git_recoverable(paths)` from the hook: `true` only when the
inside-work-tree check succeeds, the target list is non-empty and every
target passes `pathRecoverableCheck`. -/
def all_git_recoverable (g : GitEnv) (paths : List String) : Bool :=
  match g.insideWorkTree with
  | none => false
  | some p =>
    if p.returncode != 0 then false
    else
      let root? : Option String :=
        match g.showToplevel with
        | none => none
        | some p2 => if p2.returncode == 0 then some (pyStrip p2.stdout) else none
      if paths.isEmpty then false
      else paths.all (pathRecoverableCheck g root?)

/-- The env-var/sudo skipping loop shared by `_parse_rm_targets` and
`_needs_discord_approval_bash`: drop leading tokens that contain `=` (and do
not start with `-`) or equal `sudo`. -/
def skipEnvSudo : List String → List String
  | [] => []
  | tok :: rest =>
    if (strContainsChar tok '=' && !strStartsWith tok "-") || tok == "sudo" then
      skipEnvSudo rest
    else tok :: rest

/-- The flag-skipping argument loop of `_parse_rm_targets`: collect non-flag
tokens as paths, honouring the first `--` end-of-options marker. -/
def collectTargets : List String → Bool → List String
  | [], _ => []
  | tok :: rest, pastSep =>
    if tok == "--" && !pastSep then collectTargets rest true
    else if !pastSep && strStartsWith tok "-" then collectTargets rest pastSep
    else tok :: collectTargets rest pastSep

/-- `_parse_rm_targets(part)`.  Its call to `shlex.split` is external; the
argument is the already-computed split, with `none` for a `ValueError`
(unparsable quoting), which the source turns into an empty target list. -/
def parse_rm_targets (split? : Option (List String)) : List String :=
  match split? with
  | none => []
  | some tokens => collectTargets ((skipEnvSudo tokens).drop 1) false

/-- Models `shlex.split` on command strings that contain no quoting, escape
characters or shell metacharacters handled specially by `shlex`: on those it
coincides with whitespace splitting.  Used only for concrete inputs of that
simple shape; the theorems keep the splitter as a parameter. -/
def shlexSplitPlain (s : String) : Option (List String) :=
  some (pySplitWs s)

/-- One iteration of the `for part in parts` loop of
`_needs_discord_approval_bash`: does this segment `return True`?
(`false` covers both the `continue` cases and falling off the segment.) -/
def segmentTriggers (shlex : String → Option (List String)) (g : GitEnv)
    (part : String) : Bool :=
  let stripped := pyStrip part
  !(stripped == "") &&
  (matchesDestructiveGit stripped ||
    (match skipEnvSudo (pySplitWs stripped) with
     | [] => false
     | t :: _ =>
       DESTRUCTIVE_COMMANDS.contains (basename t) &&
       !(all_git_recoverable g (parse_rm_targets (shlex stripped)))))

/-- `_needs_discord_approval_bash(command)`: the loop returns `True` exactly
when some segment triggers. -/
def needs_discord_approval_bash (shlex : String → Option (List String))
    (g : GitEnv) (command : String) : Bool :=
  (splitSegments command).any (segmentTriggers shlex g)

/-! ### Concrete git oracles used in witnesses and counterexamples -/

/-- A repository where `a.txt` exists but is untracked: `git ls-files
--others a.txt` lists it. -/
def gUntracked : GitEnv where
  insideWorkTree := some ⟨0, "true\n"⟩
  showToplevel := some ⟨0, "/home/user/repo\n"⟩
  lsFilesOthers := fun p => some ⟨0, if p == "a.txt" then "a.txt\n" else ""⟩
  lsFiles := fun _ => some ⟨0, ""⟩

/-- A repository where `tracked.txt` is committed and clean: no untracked
output, tracked listing non-empty. -/
def gTracked : GitEnv where
  insideWorkTree := some ⟨0, "true\n"⟩
  showToplevel := some ⟨0, "/home/user/repo\n"⟩
  lsFilesOthers := fun _ => some ⟨0, ""⟩
  lsFiles := fun p => some ⟨0, if p == "tracked.txt" then "tracked.txt\n" else ""⟩

/-- The oracle for a deletion target that resolves outside the repository
(e.g. `../escape.txt`): git refuses both `ls-files` queries with exit code
128 and empty stdout, exactly what `subprocess.run` reports for
`fatal: ... is outside repository`. -/
def gEscape : GitEnv where
  insideWorkTree := some ⟨0, "true\n"⟩
  showToplevel := some ⟨0, "/home/user/repo\n"⟩
  lsFilesOthers := fun _ => some ⟨128, ""⟩
  lsFiles := fun _ => some ⟨128, ""⟩

/-- A working directory that is not inside any git repository. -/
def gNoRepo : GitEnv where
  insideWorkTree := some ⟨128, ""⟩
  showToplevel := some ⟨128, ""⟩
  lsFilesOthers := fun _ => some ⟨128, ""⟩
  lsFiles := fun _ => some ⟨128, ""⟩

/-! ## The broker: pending requests and resolver actions

`server.py` keeps three module-level registries: `_pending`
(`request_id -> PendingRequest`), `_sessions_with_approvals` and
`_auto_allow_sessions`.  Each Discord callback reads `_pending.get(rid)`,
answers "This request has already expired." when it is gone, and otherwise
writes `decision`/`reason` and fires `event` — all before its first `await`,
so each callback body is one atomic step of the event loop.  The waiting
`handle_approval` coroutine pops the registry entry only after its
`asyncio.wait_for` wakes up; any callbacks scheduled before that run against
the still-registered entry. -/

/-- `PendingRequest` from `server.py` (the `asyncio.Event` is the `eventSet`
flag: it only ever transitions to `true`). -/
structure PendingRequest where
  request_id : String
  tool_name : String
  tool_input : String
  eventSet : Bool := false
  decision : Option String := none
  reason : Option String := none
deriving DecidableEq

/-- Look up a request id in the `_pending` dict. -/
def assocLookup : List (String × PendingRequest) → String → Option PendingRequest
  | [], _ => none
  | (k, v) :: rest, rid => if k == rid then some v else assocLookup rest rid

/-- `_pending.pop(rid, None)` / `del`: remove an entry. -/
def assocErase (l : List (String × PendingRequest)) (rid : String) :
    List (String × PendingRequest) :=
  l.filter (fun p => p.1 != rid)

/-- `_pending[rid] = req`: overwrite or add an entry. -/
def assocSet (l : List (String × PendingRequest)) (rid : String)
    (req : PendingRequest) : List (String × PendingRequest) :=
  (rid, req) :: assocErase l rid

/-- `set.add` for the session sets (idempotent). -/
def addToSet (l : List String) (x : String) : List String :=
  if l.contains x then l else x :: l

/-- `set.discard` for the session sets. -/
def removeFromSet (l : List String) (x : String) : List String :=
  l.filter (fun s => s != x)

/-- The module-level mutable state of the broker. -/
structure BrokerState where
  pending : List (String × PendingRequest)
  sessionsWithApprovals : List String
  autoAllowSessions : List String
deriving DecidableEq

/-- The empty startup state. -/
def BrokerState.empty : BrokerState := ⟨[], [], []⟩

/-- `sorted(dict)`-ordered insertion for the multi-question answer dict. -/
def insertByKey (x : Nat × String) : List (Nat × String) → List (Nat × String)
  | [] => [x]
  | y :: ys => if x.1 ≤ y.1 then x :: y :: ys else y :: insertByKey x ys

/-- Sort the collected `(question index, joined labels)` answers by key. -/
def sortByKey (l : List (Nat × String)) : List (Nat × String) :=
  l.foldr insertByKey []

/-- `"\n".join(f"Q{i + 1}: {answers[i]}" for i in sorted(answers))` from
`AskUserQuestionView._submit_callback`. -/
def formatAnswers (l : List (Nat × String)) : String :=
  String.intercalate "\n"
    ((sortByKey l).map (fun p => "Q" ++ toString (p.1 + 1) ++ ": " ++ p.2))

/-- One atomic resolver step against a pending request: the body of an
interaction callback or a view timeout, as run by the event loop. -/
inductive ResolveAction where
  /-- `ApprovalView.allow` -/
  | allowBtn : ResolveAction
  /-- `ApprovalView.deny` -/
  | denyBtn : ResolveAction
  /-- `ApprovalView.allow_all`; carries the view's `session_id` -/
  | allowAllBtn (session_id : String) : ResolveAction
  /-- `ReplyModal.on_submit` with the typed text -/
  | replySubmit (text : String) : ResolveAction
  /-- `AskUserQuestionView._make_button_callback` for an option label -/
  | optionSelect (label : String) : ResolveAction
  /-- `AskUserQuestionView._submit_callback` with the answer dict collected
  by the select callbacks and the view's question count -/
  | multiSubmit (answers : List (Nat × String)) (questionCount : Nat) : ResolveAction
  /-- `ApprovalView.on_timeout` -/
  | viewTimeout : ResolveAction
  /-- `AskUserQuestionView.on_timeout` -/
  | askViewTimeout : ResolveAction
deriving DecidableEq

/-- What the issuer of a resolver step observes. -/
inductive ResolveObs where
  /-- the ephemeral "This request has already expired." message -/
  | expired : ResolveObs
  /-- a normal acknowledgement (the response embed / `defer`) -/
  | acknowledged : ResolveObs
  /-- "Please answer all questions (... remaining)." -/
  | incomplete : ResolveObs
  /-- a view timeout that found nothing to do (silent) -/
  | noop : ResolveObs
deriving DecidableEq

/-- Which resolver steps can record an `allow` decision: only the Allow and
Allow All buttons of `ApprovalView`. -/
def producesAllow : ResolveAction → Bool
  | .allowBtn => true
  | .allowAllBtn _ => true
  | _ => false

/-- Apply one resolver step for request `rid` to the broker state, returning
the new state and what the issuer observes.  Mirrors the callback bodies in
`server.py` (each checks `_pending.get`, then writes `decision`/`reason` and
fires the event). -/
def applyAction (rid : String) (a : ResolveAction) (st : BrokerState) :
    BrokerState × ResolveObs :=
  match assocLookup st.pending rid with
  | none =>
    match a with
    | .viewTimeout => (st, .noop)
    | .askViewTimeout => (st, .noop)
    | _ => (st, .expired)
  | some req =>
    match a with
    | .allowBtn =>
      let req1 := {req with decision := some "allow", eventSet := true}
      ({st with pending := assocSet st.pending rid req1}, .acknowledged)
    | .denyBtn =>
      let req1 := {req with decision := some "deny", eventSet := true}
      ({st with pending := assocSet st.pending rid req1}, .acknowledged)
    | .allowAllBtn sid =>
      let st1 := if sid ≠ "" then
          {st with autoAllowSessions := addToSet st.autoAllowSessions sid}
        else st
      let req1 := {req with decision := some "allow", eventSet := true}
      ({st1 with pending := assocSet st1.pending rid req1}, .acknowledged)
    | .replySubmit text =>
      let req1 := {req with decision := some "deny", reason := some text, eventSet := true}
      ({st with pending := assocSet st.pending rid req1}, .acknowledged)
    | .optionSelect label =>
      let req1 := {req with decision := some "deny", reason := some label, eventSet := true}
      ({st with pending := assocSet st.pending rid req1}, .acknowledged)
    | .multiSubmit answers questionCount =>
      if answers.length < questionCount then (st, .incomplete)
      else
        let req1 := {req with decision := some "deny",
                              reason := some (formatAnswers answers), eventSet := true}
        ({st with pending := assocSet st.pending rid req1}, .acknowledged)
    | .viewTimeout =>
      if req.eventSet then (st, .noop)
      else
        let req1 := {req with decision := some "deny",
                              reason := some "Timed out waiting for approval",
                              eventSet := true}
        ({st with pending := assocSet st.pending rid req1}, .acknowledged)
    | .askViewTimeout =>
      if req.eventSet then (st, .noop)
      else
        let req1 := {req with decision := some "deny",
                              reason := some "Timed out waiting for response",
                              eventSet := true}
        ({st with pending := assocSet st.pending rid req1}, .acknowledged)

/-- The decision a waiting `/approve` handler finally returns. -/
structure DecisionResult where
  decision : String
  reason : Option String
deriving DecidableEq

/-- The tail of `handle_approval` after its `asyncio.wait_for` wakes up (or
times out): fill in the timeout decision if the event never fired, pop the
registry entry, and build `{"decision": req.decision or "deny"}` plus the
reason when truthy. -/
def finishApproval (rid : String) (st : BrokerState) : BrokerState × DecisionResult :=
  let st' := {st with pending := assocErase st.pending rid}
  match assocLookup st.pending rid with
  | none => (st', ⟨"deny", none⟩)
  | some req =>
    let req' := if req.eventSet then req
      else {req with decision := some "deny",
                     reason := some "Timed out waiting for approval"}
    let d := match req'.decision with
      | some s => if s == "" then "deny" else s
      | none => "deny"
    let r := match req'.reason with
      | some s => if s == "" then none else some s
      | none => none
    (st', ⟨d, r⟩)

/-! ## The HTTP surface -/

/-- The JSON body of a `/approve` request (the fields `handle_approval`
reads; `transcript_path` and `cwd` feed only the display-context extraction,
which is part of the opaque channel rendering). -/
structure ApprovalBody where
  request_id : String
  tool_name : String
  tool_input : String
  session_id : String
  tmux_pane : String
deriving DecidableEq

/-- An HTTP JSON response as built by `web.json_response` in the handlers:
the status code and the fields the handlers put into the payload. -/
structure HttpResp where
  status : Nat
  decision : Option String := none
  reason : Option String := none
  error : Option String := none
  statusMsg : Option String := none
deriving DecidableEq

/-- `{"decision": "allow"}` with HTTP 200. -/
def allowResp : HttpResp := ⟨200, some "allow", none, none, none⟩

/-- `{"status": "ok"}` with HTTP 200. -/
def okResp : HttpResp := ⟨200, none, none, none, some "ok"⟩

/-- The response for a completed wait. -/
def respOfDecision (d : DecisionResult) : HttpResp :=
  ⟨200, some d.decision, d.reason, none, none⟩

/-- The Discord-side environment of one `/approve` or `/notify-stop` call:
whether the configured channel resolves, whether the sends into the thread
succeed, and the session title the transcript extraction produces. -/
structure ChannelEnv where
  channelFound : Bool
  sendOk : Bool
  sessionTitle : String
deriving DecidableEq

/-! ## The session-thread router -/

/-- A Discord thread as far as the router observes it. -/
structure DThread where
  tid : Nat
  name : String
  archived : Bool
deriving DecidableEq

/-- The channel's threads (`channel.threads` is the non-archived part,
`channel.archived_threads(limit=50)` the first 50 of the archived part),
a fresh-id counter for `create_thread`, and the module-level
`_session_threads` map. -/
structure RouterState where
  channelThreads : List DThread
  nextId : Nat
  sessionThreads : List (String × Nat)
deriving DecidableEq

/-- Lookup in `_session_threads`. -/
def threadLookup : List (String × Nat) → String → Option Nat
  | [], _ => none
  | (k, v) :: rest, sid => if k == sid then some v else threadLookup rest sid

/-- `_session_threads[sid] = tid`. -/
def threadSet (l : List (String × Nat)) (sid : String) (tid : Nat) :
    List (String × Nat) :=
  (sid, tid) :: l.filter (fun p => p.1 != sid)

/-- `_session_threads.pop(sid, None)`. -/
def threadErase (l : List (String × Nat)) (sid : String) : List (String × Nat) :=
  l.filter (fun p => p.1 != sid)

/-- The thread object behind a cached id. -/
def findThreadById (rs : RouterState) (tid : Nat) : Option DThread :=
  rs.channelThreads.find? (fun t => t.tid == tid)

/-- `thread.edit(archived=b)`. -/
def setArchived (rs : RouterState) (tid : Nat) (b : Bool) : RouterState :=
  {rs with channelThreads :=
    rs.channelThreads.map (fun t => if t.tid == tid then {t with archived := b} else t)}

/-- Thread-name derivation from `_get_or_create_thread`:
`session_title or session_id[:12]`, truncated to Discord's 100-char limit. -/
def deriveThreadName (session_id session_title : String) : String :=
  let nm := if session_title ≠ "" then session_title else strTake session_id 12
  if nm.length > 100 then strTake nm 97 ++ "..." else nm

/-- `_find_existing_thread(channel, thread_name)`: search the active threads,
then the first 50 archived threads, for a name match; unarchive an archived
hit.  Returns the found thread id and the updated channel. -/
def findExistingThread (rs : RouterState) (nm : String) :
    Option (Nat × RouterState) :=
  match (rs.channelThreads.filter (fun t => !t.archived)).find?
      (fun t => t.name == nm) with
  | some t => some (t.tid, if t.archived then setArchived rs t.tid false else rs)
  | none =>
    match ((rs.channelThreads.filter (fun t => t.archived)).take 50).find?
        (fun t => t.name == nm) with
    | some t => some (t.tid, setArchived rs t.tid false)
    | none => none

/-- The fallback path of `_get_or_create_thread` when the session has no
usable cached thread: reuse a name-matching thread or create a new one. -/
def getOrCreateFresh (rs : RouterState) (sid title : String) : Nat × RouterState :=
  let nm := deriveThreadName sid title
  match findExistingThread rs nm with
  | some (tid, rs1) =>
    (tid, {rs1 with sessionThreads := threadSet rs1.sessionThreads sid tid})
  | none =>
    let tid := rs.nextId
    (tid, { channelThreads := rs.channelThreads ++ [⟨tid, nm, false⟩],
            nextId := rs.nextId + 1,
            sessionThreads := threadSet rs.sessionThreads sid tid })

/-- `_get_or_create_thread(channel, session_id, session_title)`.  A cached
binding whose thread can no longer be resolved behaves like the source's
`except Exception: pass` and falls through to the fresh path. -/
def getOrCreateThread (rs : RouterState) (sid title : String) : Nat × RouterState :=
  match threadLookup rs.sessionThreads sid with
  | some tid =>
    match findThreadById rs tid with
    | some t =>
      if !t.archived then (tid, rs)
      else (tid, setArchived rs tid false)
    | none => getOrCreateFresh rs sid title
  | none => getOrCreateFresh rs sid title

/-- `_archive_thread(session_id)`: pop the binding and archive the thread
(failures of the edit are swallowed). -/
def archiveThread (rs : RouterState) (sid : String) : RouterState :=
  match threadLookup rs.sessionThreads sid with
  | none => rs
  | some tid =>
    setArchived {rs with sessionThreads := threadErase rs.sessionThreads sid} tid true

/-! ## handle_approval and handle_stop -/

/-- Everything a `/approve` call produces: the final registries, the HTTP
response, and bookkeeping of what the handler did on the way (whether it
synchronously posted to the Discord channel, registered a `PendingRequest`,
blocked on the event, or spawned the tmux background task). -/
structure ApprovalResult where
  state : BrokerState
  router : RouterState
  resp : HttpResp
  contactedChannel : Bool
  registeredPending : Bool
  blocked : Bool
  startedBackgroundTask : Bool
deriving DecidableEq

/-- The `if session_id: _sessions_with_approvals.add(session_id)` step at the
top of `handle_approval`. -/
def trackSession (bs : BrokerState) (sid : String) : BrokerState :=
  if sid ≠ "" then
    {bs with sessionsWithApprovals := addToSet bs.sessionsWithApprovals sid}
  else bs

/-- `_pending[request_id] = PendingRequest(...)`: register the fresh request
for the body. -/
def registerReq (bs : BrokerState) (b : ApprovalBody) : BrokerState :=
  {bs with
    pending := assocSet bs.pending b.request_id
      ⟨b.request_id, b.tool_name, b.tool_input, false, none, none⟩}

/-- The resolver steps the event loop runs while `handle_approval` waits. -/
def runActions (rid : String) (actions : List ResolveAction) (bs : BrokerState) :
    BrokerState :=
  actions.foldl (fun s a => (applyAction rid a s).1) bs

/-- `handle_approval(request)` from `server.py`.  The human side of the wait
is the `actions` interleaving: the resolver steps the event loop runs before
the handler's `asyncio.wait_for(req.event.wait(), APPROVAL_TIMEOUT + 5)`
wakes up; if none of them fired the event, the wait has timed out.
`env.channelFound = false` models both `get_channel` and `fetch_channel`
failing; `env.sendOk = false` an exception while resolving the thread or
posting the message, which aiohttp surfaces as an internal server error. -/
def handleApproval (env : ChannelEnv) (bs : BrokerState) (rs : RouterState)
    (b : ApprovalBody) (actions : List ResolveAction) : ApprovalResult :=
  if b.request_id = "" then
    ⟨bs, rs, ⟨400, none, none, some "request_id required", none⟩,
     false, false, false, false⟩
  else if (trackSession bs b.session_id).autoAllowSessions.contains b.session_id then
    ⟨trackSession bs b.session_id, rs, allowResp, false, false, false, false⟩
  else if b.tool_name = "AskUserQuestion" ∧ b.tmux_pane ≠ "" then
    ⟨trackSession bs b.session_id, rs, allowResp, false, false, false, true⟩
  else if !env.channelFound then
    ⟨{registerReq (trackSession bs b.session_id) b with
        pending := assocErase (registerReq (trackSession bs b.session_id) b).pending b.request_id},
     rs, ⟨500, none, none, some "Discord channel not found", none⟩,
     false, true, false, false⟩
  else if !env.sendOk then
    ⟨registerReq (trackSession bs b.session_id) b,
     (getOrCreateThread rs b.session_id env.sessionTitle).2,
     ⟨500, none, none, some "internal error", none⟩, true, true, false, false⟩
  else
    ⟨(finishApproval b.request_id
        (runActions b.request_id actions (registerReq (trackSession bs b.session_id) b))).1,
     (getOrCreateThread rs b.session_id env.sessionTitle).2,
     respOfDecision (finishApproval b.request_id
        (runActions b.request_id actions (registerReq (trackSession bs b.session_id) b))).2,
     true, true, true, false⟩

/-- The JSON body of a `/notify-stop` request. -/
structure StopBody where
  session_id : String
  transcript_path : String
  cwd : String
  stop_reason : String
  tmux_pane : String
deriving DecidableEq

/-- The outcome of a `/notify-stop` call. -/
structure StopResult where
  broker : BrokerState
  router : RouterState
  resp : HttpResp
deriving DecidableEq

/-- `handle_stop(request)` from `server.py`.  `body = none` models a body
that fails to parse as JSON; `env.sendOk = false` models an exception while
resolving or posting into the thread, which aiohttp surfaces as an internal
server error. -/
def handleStop (env : ChannelEnv) (bs : BrokerState) (rs : RouterState)
    (body : Option StopBody) : StopResult :=
  match body with
  | none => ⟨bs, rs, ⟨400, none, none, some "invalid json", none⟩⟩
  | some b =>
    if !env.channelFound then
      ⟨bs, rs, ⟨500, none, none, some "Discord channel not found", none⟩⟩
    else if !env.sendOk then
      ⟨bs, (getOrCreateThread rs b.session_id env.sessionTitle).2,
       ⟨500, none, none, some "internal error", none⟩⟩
    else if b.tmux_pane ≠ "" then
      ⟨bs, (getOrCreateThread rs b.session_id env.sessionTitle).2, okResp⟩
    else
      ⟨{bs with
          sessionsWithApprovals := removeFromSet bs.sessionsWithApprovals b.session_id,
          autoAllowSessions := removeFromSet bs.autoAllowSessions b.session_id},
       archiveThread (getOrCreateThread rs b.session_id env.sessionTitle).2 b.session_id,
       okResp⟩

/-- The resolved request a view timeout writes. -/
def timedOutReq (req : PendingRequest) (r : String) : PendingRequest :=
  {req with decision := some "deny", reason := some r, eventSet := true}

/-- The broker state right after `handle_approval` has registered request
`"r1"` for session `"s1"` (used to exhibit the resolution race concretely). -/
def bsRegistered : BrokerState :=
  ⟨[("r1", ⟨"r1", "Bash", "c", false, none, none⟩)], ["s1"], []⟩

/-- A channel whose thread named `"T"` is archived and sits beyond the
50-thread window that `archived_threads(limit=50)` lists: 50 more recently
listed archived threads (named `"A"`) come first.  Used to exhibit that the
name search of `_find_existing_thread` cannot see it. -/
def rsBeyond : RouterState :=
  ⟨(List.range 50).map (fun i => ⟨i, "A", true⟩) ++ [⟨50, "T", true⟩], 100, []⟩

/-! ## Helper lemmas -/

theorem assocLookup_set_self (l : List (String × PendingRequest)) (rid : String)
    (req : PendingRequest) : assocLookup (assocSet l rid req) rid = some req := by
  simp [assocSet, assocLookup]

theorem assocLookup_eq_none_of_all (l : List (String × PendingRequest)) (rid : String)
    (h : ∀ p ∈ l, p.1 ≠ rid) : assocLookup l rid = none := by
  induction l with
  | nil => rfl
  | cons p rest ih =>
    have h1 := h p (List.mem_cons_self _ _)
    simp only [assocLookup]
    rw [if_neg (by simpa using h1)]
    exact ih fun q hq => h q (List.mem_cons_of_mem _ hq)

theorem assocLookup_erase_self (l : List (String × PendingRequest)) (rid : String) :
    assocLookup (assocErase l rid) rid = none :=
  assocLookup_eq_none_of_all _ _ (by
    intro p hp
    simpa using List.of_mem_filter hp)

theorem contains_addToSet_self (l : List String) (x : String) :
    (addToSet l x).contains x = true := by
  unfold addToSet
  by_cases h : l.contains x = true
  · rw [if_pos h]; exact h
  · rw [if_neg h]; simp

theorem contains_removeFromSet_self (l : List String) (x : String) :
    (removeFromSet l x).contains x = false := by
  simp [removeFromSet]

theorem timeout_fold_keeps_unresolved (rid : String) (actions : List ResolveAction)
    (bs : BrokerState) (req : PendingRequest)
    (h : ∀ a ∈ actions, a = ResolveAction.viewTimeout ∨ a = ResolveAction.askViewTimeout)
    (hreq : assocLookup bs.pending rid = some req)
    (hP : req.eventSet = false ∨
          req.eventSet = true ∧ req.decision = some "deny" ∧
            (req.reason = some "Timed out waiting for approval" ∨
             req.reason = some "Timed out waiting for response")) :
    ∃ req', assocLookup (runActions rid actions bs).pending rid = some req' ∧
      (req'.eventSet = false ∨
       req'.eventSet = true ∧ req'.decision = some "deny" ∧
         (req'.reason = some "Timed out waiting for approval" ∨
          req'.reason = some "Timed out waiting for response")) := by
  induction actions generalizing bs req with
  | nil => exact ⟨req, hreq, hP⟩
  | cons a rest ih =>
    have hrest : ∀ x ∈ rest,
        x = ResolveAction.viewTimeout ∨ x = ResolveAction.askViewTimeout :=
      fun x hx => h x (List.mem_cons_of_mem _ hx)
    have ha := h a (List.mem_cons_self _ _)
    have hcons : runActions rid (a :: rest) bs =
        runActions rid rest ((applyAction rid a bs).1) := rfl
    rw [hcons]
    rcases ha with rfl | rfl
    · rcases hP with hev | ⟨hev, hdec, hr⟩
      · have hstep : (applyAction rid ResolveAction.viewTimeout bs).1 =
            {bs with pending := assocSet bs.pending rid (timedOutReq req "Timed out waiting for approval")} := by
          simp [applyAction, timedOutReq, hreq, hev]
        rw [hstep]
        exact ih _ _ hrest (assocLookup_set_self ..) (Or.inr ⟨rfl, rfl, Or.inl rfl⟩)
      · have hstep : (applyAction rid ResolveAction.viewTimeout bs).1 = bs := by
          simp [applyAction, hreq, hev]
        rw [hstep]
        exact ih _ _ hrest hreq (Or.inr ⟨hev, hdec, hr⟩)
    · rcases hP with hev | ⟨hev, hdec, hr⟩
      · have hstep : (applyAction rid ResolveAction.askViewTimeout bs).1 =
            {bs with pending := assocSet bs.pending rid (timedOutReq req "Timed out waiting for response")} := by
          simp [applyAction, timedOutReq, hreq, hev]
        rw [hstep]
        exact ih _ _ hrest (assocLookup_set_self ..) (Or.inr ⟨rfl, rfl, Or.inr rfl⟩)
      · have hstep : (applyAction rid ResolveAction.askViewTimeout bs).1 = bs := by
          simp [applyAction, hreq, hev]
        rw [hstep]
        exact ih _ _ hrest hreq (Or.inr ⟨hev, hdec, hr⟩)

/-! ## Claims -/

/-- C1: the spec claims every pending `request_id` is resolved exactly once —
the first of explicit allow, explicit deny, typed reply or timeout to fire
the signal determines the single recorded decision, and every later
resolution attempt is a no-op whose issuer is told the request has already
expired.  The code violates this: with request `"r1"` registered, an Allow
click followed by a Deny click before the waiting handler resumes are both
acknowledged (the Deny click is not told the request expired, because the
registry entry is only removed after the waiter wakes up), the second write
overwrites the first, and the caller receives decision `"deny"` even though
the Allow click fired the signal first. -/
theorem race_second_resolver_overwrites_first :
    (applyAction "r1" ResolveAction.allowBtn bsRegistered).2 =
      ResolveObs.acknowledged ∧
    (assocLookup (applyAction "r1" ResolveAction.allowBtn bsRegistered).1.pending
        "r1").map (fun r => (r.eventSet, r.decision)) = some (true, some "allow") ∧
    (applyAction "r1" ResolveAction.denyBtn
        (applyAction "r1" ResolveAction.allowBtn bsRegistered).1).2 =
      ResolveObs.acknowledged ∧
    (handleApproval ⟨true, true, ""⟩ BrokerState.empty ⟨[], 0, []⟩
        ⟨"r1", "Bash", "c", "s1", ""⟩
        [ResolveAction.allowBtn, ResolveAction.denyBtn]).resp =
      ⟨200, some "deny", none, none, none⟩ := by
  decide

/-- C2: every `/approve` request that registers a `PendingRequest` and posts
it to the channel is answered within the bounded wait: if no human
resolution fires (the only steps that run are view timeouts, or none at
all), the request is resolved as decision `"deny"` with the standard
timed-out reason string, the registry entry is removed, and the caller gets
an HTTP 200 decision rather than blocking indefinitely. -/
theorem approve_timeout_resolves_deny (env : ChannelEnv) (bs : BrokerState)
    (rs : RouterState) (b : ApprovalBody) (actions : List ResolveAction)
    (h1 : b.request_id ≠ "")
    (h2 : bs.autoAllowSessions.contains b.session_id = false)
    (h3 : ¬(b.tool_name = "AskUserQuestion" ∧ b.tmux_pane ≠ ""))
    (h4 : env.channelFound = true) (h5 : env.sendOk = true)
    (hacts : ∀ a ∈ actions,
      a = ResolveAction.viewTimeout ∨ a = ResolveAction.askViewTimeout) :
    (handleApproval env bs rs b actions).resp.status = 200 ∧
    (handleApproval env bs rs b actions).resp.decision = some "deny" ∧
    ((handleApproval env bs rs b actions).resp.reason =
        some "Timed out waiting for approval" ∨
     (handleApproval env bs rs b actions).resp.reason =
        some "Timed out waiting for response") ∧
    assocLookup (handleApproval env bs rs b actions).state.pending b.request_id
      = none ∧
    (handleApproval env bs rs b actions).blocked = true := by
  have hA : (trackSession bs b.session_id).autoAllowSessions.contains b.session_id
      = false := by
    unfold trackSession
    split <;> exact h2
  have hreg : assocLookup (registerReq (trackSession bs b.session_id) b).pending
      b.request_id = some ⟨b.request_id, b.tool_name, b.tool_input, false, none, none⟩ :=
    assocLookup_set_self ..
  obtain ⟨req', hlook, hP'⟩ := timeout_fold_keeps_unresolved b.request_id actions
    (registerReq (trackSession bs b.session_id) b) _ hacts hreg (Or.inl rfl)
  have hmain : handleApproval env bs rs b actions =
      ⟨(finishApproval b.request_id
          (runActions b.request_id actions (registerReq (trackSession bs b.session_id) b))).1,
       (getOrCreateThread rs b.session_id env.sessionTitle).2,
       respOfDecision (finishApproval b.request_id
          (runActions b.request_id actions (registerReq (trackSession bs b.session_id) b))).2,
       true, true, true, false⟩ := by
    unfold handleApproval
    rw [if_neg h1, hA, h4, h5, if_neg h3]
    simp
  rw [hmain]
  rcases hP' with hev | ⟨hev, hdec, hr⟩
  · have hfin : finishApproval b.request_id
        (runActions b.request_id actions (registerReq (trackSession bs b.session_id) b)) =
        ({(runActions b.request_id actions (registerReq (trackSession bs b.session_id) b)) with
            pending := assocErase (runActions b.request_id actions
              (registerReq (trackSession bs b.session_id) b)).pending b.request_id},
         ⟨"deny", some "Timed out waiting for approval"⟩) := by
      unfold finishApproval
      rw [hlook]
      simp [hev]
    rw [hfin]
    refine ⟨rfl, rfl, Or.inl rfl, ?_, rfl⟩
    exact assocLookup_erase_self ..
  · have hfin2 : (finishApproval b.request_id
        (runActions b.request_id actions (registerReq (trackSession bs b.session_id) b))).2 =
        ⟨"deny", req'.reason⟩ := by
      unfold finishApproval
      rw [hlook]
      rcases hr with hr | hr <;> simp [hev, hdec, hr]
    have hfin1 : (finishApproval b.request_id
        (runActions b.request_id actions (registerReq (trackSession bs b.session_id) b))).1.pending =
        assocErase (runActions b.request_id actions
          (registerReq (trackSession bs b.session_id) b)).pending b.request_id := by
      unfold finishApproval
      rw [hlook]
    refine ⟨rfl, ?_, ?_, ?_, rfl⟩
    · simp [respOfDecision, hfin2]
    · rcases hr with hr | hr
      · exact Or.inl (by simp [respOfDecision, hfin2, hr])
      · exact Or.inr (by simp [respOfDecision, hfin2, hr])
    · rw [show (⟨(finishApproval b.request_id
          (runActions b.request_id actions (registerReq (trackSession bs b.session_id) b))).1,
          (getOrCreateThread rs b.session_id env.sessionTitle).2,
          respOfDecision (finishApproval b.request_id
            (runActions b.request_id actions (registerReq (trackSession bs b.session_id) b))).2,
          true, true, true, false⟩ : ApprovalResult).state =
          (finishApproval b.request_id
            (runActions b.request_id actions (registerReq (trackSession bs b.session_id) b))).1 from rfl,
        hfin1]
      exact assocLookup_erase_self ..

/-- Witness for C2 at a concrete input: request `"w2"` for session `"sw2"`
with only the view timeout firing. -/
theorem approve_timeout_resolves_deny_witness :
    (handleApproval ⟨true, true, "T"⟩ BrokerState.empty ⟨[], 0, []⟩
        ⟨"w2", "Bash", "c", "sw2", ""⟩ [ResolveAction.viewTimeout]).resp.decision
      = some "deny" :=
  (approve_timeout_resolves_deny ⟨true, true, "T"⟩ BrokerState.empty ⟨[], 0, []⟩
    ⟨"w2", "Bash", "c", "sw2", ""⟩ [ResolveAction.viewTimeout]
    (by decide) (by decide) (by decide) (by decide) (by decide) (by decide)).2.1

/-- C3: once "Allow All" has resolved a request for a session — resolving
that request as allow and setting the session's escalation flag — every
subsequent `/approve` call for the same `session_id` returns decision
`"allow"` immediately, registering no `PendingRequest` and contacting no
channel and never blocking, and the flag survives such calls; a
session-close `/notify-stop` (valid body, no tmux pane) clears the flag. -/
theorem allow_all_escalates_session
    (bs : BrokerState) (rid sid : String) (req : PendingRequest)
    (hreq : assocLookup bs.pending rid = some req) (hsid : sid ≠ "")
    (env : ChannelEnv) (rs : RouterState) (b : ApprovalBody)
    (actions : List ResolveAction) (bs' : BrokerState)
    (hflag : bs'.autoAllowSessions.contains sid = true)
    (hb : b.session_id = sid) (hbr : b.request_id ≠ "")
    (envS : ChannelEnv) (rsS : RouterState) (bsS : BrokerState) (sb : StopBody)
    (hsb : sb.session_id = sid) (hsbt : sb.tmux_pane = "")
    (hcf : envS.channelFound = true) (hso : envS.sendOk = true) :
    (applyAction rid (ResolveAction.allowAllBtn sid) bs).1.autoAllowSessions.contains sid = true ∧
    assocLookup (applyAction rid (ResolveAction.allowAllBtn sid) bs).1.pending rid
      = some {req with decision := some "allow", eventSet := true} ∧
    (applyAction rid (ResolveAction.allowAllBtn sid) bs).2 = ResolveObs.acknowledged ∧
    (handleApproval env bs' rs b actions).resp = allowResp ∧
    (handleApproval env bs' rs b actions).registeredPending = false ∧
    (handleApproval env bs' rs b actions).contactedChannel = false ∧
    (handleApproval env bs' rs b actions).blocked = false ∧
    (handleApproval env bs' rs b actions).state.pending = bs'.pending ∧
    (handleApproval env bs' rs b actions).state.autoAllowSessions = bs'.autoAllowSessions ∧
    (handleStop envS bsS rsS (some sb)).broker.autoAllowSessions.contains sid = false := by
  have hAA : (trackSession bs' b.session_id).autoAllowSessions.contains b.session_id
      = true := by
    unfold trackSession
    split <;> (rw [hb]; exact hflag)
  have hred : handleApproval env bs' rs b actions =
      ⟨trackSession bs' b.session_id, rs, allowResp, false, false, false, false⟩ := by
    unfold handleApproval
    rw [if_neg hbr, if_pos hAA]
  have hpend : (trackSession bs' b.session_id).pending = bs'.pending := by
    unfold trackSession
    split <;> rfl
  have hauto : (trackSession bs' b.session_id).autoAllowSessions
      = bs'.autoAllowSessions := by
    unfold trackSession
    split <;> rfl
  have hstop : (handleStop envS bsS rsS (some sb)).broker.autoAllowSessions =
      removeFromSet bsS.autoAllowSessions sb.session_id := by
    unfold handleStop
    rw [hcf, hso]
    simp [hsbt]
  refine ⟨?_, ?_, ?_, ?_, ?_, ?_, ?_, ?_, ?_, ?_⟩
  · have hfield : (applyAction rid (ResolveAction.allowAllBtn sid) bs).1.autoAllowSessions
        = addToSet bs.autoAllowSessions sid := by
      simp [applyAction, hreq, hsid]
    rw [hfield]
    exact contains_addToSet_self ..
  · simp [applyAction, hreq, hsid, assocLookup_set_self]
  · simp [applyAction, hreq, hsid]
  · rw [hred]
  · rw [hred]
  · rw [hred]
  · rw [hred]
  · rw [hred]; exact hpend
  · rw [hred]; exact hauto
  · rw [hstop, hsb]
    exact contains_removeFromSet_self ..

/-- Witness for C3: session `"s3"` under escalation gets an immediate allow. -/
theorem allow_all_escalates_session_witness :
    (handleApproval ⟨true, true, ""⟩ ⟨[], [], ["s3"]⟩ ⟨[], 0, []⟩
        ⟨"r3b", "Bash", "c", "s3", ""⟩ []).resp = allowResp :=
  (allow_all_escalates_session
    ⟨[("r3", ⟨"r3", "Bash", "c", false, none, none⟩)], [], []⟩
    "r3" "s3" ⟨"r3", "Bash", "c", false, none, none⟩ (by decide) (by decide)
    ⟨true, true, ""⟩ ⟨[], 0, []⟩ ⟨"r3b", "Bash", "c", "s3", ""⟩ [] ⟨[], [], ["s3"]⟩
    (by decide) (by decide) (by decide)
    ⟨true, true, ""⟩ ⟨[], 0, []⟩ ⟨[], [], ["s3"]⟩ ⟨"s3", "", "", "", ""⟩
    (by decide) (by decide) (by decide) (by decide)).2.2.2.1

/-- C9: an `/approve` request whose `tool_name` is `"AskUserQuestion"` and
whose body carries a non-empty `tmux_pane`, for a session not under
auto-allow escalation, returns `{decision: "allow"}` immediately: no
`PendingRequest` is registered, the caller does not block, and the question
is handed to the tmux background-injection task instead. -/
theorem ask_user_question_tmux_immediate (env : ChannelEnv) (bs : BrokerState)
    (rs : RouterState) (b : ApprovalBody) (actions : List ResolveAction)
    (h1 : b.request_id ≠ "")
    (h2 : bs.autoAllowSessions.contains b.session_id = false)
    (h3 : b.tool_name = "AskUserQuestion") (h4 : b.tmux_pane ≠ "") :
    (handleApproval env bs rs b actions).resp = allowResp ∧
    (handleApproval env bs rs b actions).state.pending = bs.pending ∧
    (handleApproval env bs rs b actions).registeredPending = false ∧
    (handleApproval env bs rs b actions).blocked = false ∧
    (handleApproval env bs rs b actions).startedBackgroundTask = true := by
  have hA : (trackSession bs b.session_id).autoAllowSessions.contains b.session_id
      = false := by
    unfold trackSession
    split <;> exact h2
  have hred : handleApproval env bs rs b actions =
      ⟨trackSession bs b.session_id, rs, allowResp, false, false, false, true⟩ := by
    unfold handleApproval
    rw [if_neg h1, hA]
    simp [h3, h4]
  rw [hred]
  refine ⟨rfl, ?_, rfl, rfl, rfl⟩
  unfold trackSession
  split <;> rfl

/-- Witness for C9. -/
theorem ask_user_question_tmux_immediate_witness :
    (handleApproval ⟨true, true, ""⟩ BrokerState.empty ⟨[], 0, []⟩
        ⟨"r9", "AskUserQuestion", "q", "s9", "%1"⟩ []).resp = allowResp :=
  (ask_user_question_tmux_immediate ⟨true, true, ""⟩ BrokerState.empty ⟨[], 0, []⟩
    ⟨"r9", "AskUserQuestion", "q", "s9", "%1"⟩ []
    (by decide) (by decide) (by decide) (by decide)).1

/-- C10: a typed free-text reply, a single-question option selection, and a
complete multi-question submit each resolve the pending request as decision
`"deny"` with the reply / selected text as the reason; and no resolver step
other than the Allow and Allow All buttons can turn the recorded decision
into `"allow"`. -/
theorem human_replies_resolve_deny
    (bs : BrokerState) (rid : String) (req : PendingRequest)
    (hreq : assocLookup bs.pending rid = some req)
    (text label : String) (answers : List (Nat × String)) (qc : Nat)
    (hqc : ¬(answers.length < qc))
    (a : ResolveAction) (bs2 : BrokerState)
    (hpa : producesAllow a = false)
    (hprev : (assocLookup bs2.pending rid).bind PendingRequest.decision ≠ some "allow") :
    assocLookup (applyAction rid (ResolveAction.replySubmit text) bs).1.pending rid
      = some {req with decision := some "deny", reason := some text, eventSet := true} ∧
    assocLookup (applyAction rid (ResolveAction.optionSelect label) bs).1.pending rid
      = some {req with decision := some "deny", reason := some label, eventSet := true} ∧
    assocLookup (applyAction rid (ResolveAction.multiSubmit answers qc) bs).1.pending rid
      = some {req with decision := some "deny", reason := some (formatAnswers answers), eventSet := true} ∧
    (assocLookup (applyAction rid a bs2).1.pending rid).bind PendingRequest.decision
      ≠ some "allow" := by
  refine ⟨?_, ?_, ?_, ?_⟩
  · simp [applyAction, hreq, assocLookup_set_self]
  · simp [applyAction, hreq, assocLookup_set_self]
  · simp [applyAction, hreq, hqc, assocLookup_set_self]
  · cases hl : assocLookup bs2.pending rid with
    | none =>
      cases a <;> simp_all [applyAction]
    | some r2 =>
      cases a with
      | allowBtn => simp [producesAllow] at hpa
      | allowAllBtn sid => simp [producesAllow] at hpa
      | denyBtn => simp [applyAction, hl, assocLookup_set_self]
      | replySubmit t => simp [applyAction, hl, assocLookup_set_self]
      | optionSelect l2 => simp [applyAction, hl, assocLookup_set_self]
      | multiSubmit ans2 qc2 =>
        by_cases hc : ans2.length < qc2
        · have : (applyAction rid (ResolveAction.multiSubmit ans2 qc2) bs2).1 = bs2 := by
            simp [applyAction, hl, hc]
          rw [this, hl]
          simpa [hl] using hprev
        · simp [applyAction, hl, hc, assocLookup_set_self]
      | viewTimeout =>
        by_cases hev : r2.eventSet
        · have : (applyAction rid ResolveAction.viewTimeout bs2).1 = bs2 := by
            simp [applyAction, hl, hev]
          rw [this, hl]
          simpa [hl] using hprev
        · simp [applyAction, hl, hev, assocLookup_set_self]
      | askViewTimeout =>
        by_cases hev : r2.eventSet
        · have : (applyAction rid ResolveAction.askViewTimeout bs2).1 = bs2 := by
            simp [applyAction, hl, hev]
          rw [this, hl]
          simpa [hl] using hprev
        · simp [applyAction, hl, hev, assocLookup_set_self]

/-- Witness for C10 at concrete inputs. -/
theorem human_replies_resolve_deny_witness :
    assocLookup (applyAction "r10" (ResolveAction.replySubmit "use plan B")
        ⟨[("r10", ⟨"r10", "AskUserQuestion", "q", false, none, none⟩)], [], []⟩).1.pending
        "r10"
      = some ⟨"r10", "AskUserQuestion", "q", true, some "deny", some "use plan B"⟩ := by
  have h := human_replies_resolve_deny
    ⟨[("r10", ⟨"r10", "AskUserQuestion", "q", false, none, none⟩)], [], []⟩
    "r10" ⟨"r10", "AskUserQuestion", "q", false, none, none⟩ (by decide)
    "use plan B" "Option A" [(0, "x"), (1, "y")] 2 (by decide)
    ResolveAction.denyBtn BrokerState.empty (by decide) (by decide)
  exact h.1

/-- C7 (counterexample): the claim that every `/notify-stop` request is
answered `{status: "ok"}` for every request body fails for a body that is
not valid JSON: the handler returns HTTP 400 `{"error": "invalid json"}`. -/
theorem notify_stop_invalid_json_not_ok :
    (handleStop ⟨true, true, ""⟩ BrokerState.empty ⟨[], 0, []⟩ none).resp =
      ⟨400, none, none, some "invalid json", none⟩ ∧
    (handleStop ⟨true, true, ""⟩ BrokerState.empty ⟨[], 0, []⟩ none).resp ≠ okResp := by
  decide

/-- C7 (amended): every `/notify-stop` request whose body parses as JSON,
and for which the Discord channel resolves and the thread post succeeds, is
answered `{status: "ok"}` — failures of the best-effort steps inside that
path (archival, tmux, flag clearing) are never surfaced to the caller. -/
theorem notify_stop_ok (env : ChannelEnv) (bs : BrokerState) (rs : RouterState)
    (sb : StopBody) (h1 : env.channelFound = true) (h2 : env.sendOk = true) :
    (handleStop env bs rs (some sb)).resp = okResp := by
  unfold handleStop
  rw [h1, h2]
  by_cases h : sb.tmux_pane ≠ "" <;> simp [h]

/-- Witness for C7's amended theorem. -/
theorem notify_stop_ok_witness :
    (handleStop ⟨true, true, "T"⟩ BrokerState.empty ⟨[], 0, []⟩
        (some ⟨"s7", "", "", "done", ""⟩)).resp = okResp :=
  notify_stop_ok ⟨true, true, "T"⟩ BrokerState.empty ⟨[], 0, []⟩
    ⟨"s7", "", "", "done", ""⟩ (by decide) (by decide)

/-- A segment whose stripped text matches a destructive-git pattern triggers
the approval loop. -/
theorem segmentTriggers_of_match (shlex : String → Option (List String))
    (g : GitEnv) (seg : String)
    (hmatch : matchesDestructiveGit (pyStrip seg) = true) :
    segmentTriggers shlex g seg = true := by
  have hne : (pyStrip seg == "") = false := by
    by_cases h : pyStrip seg = ""
    · rw [h] at hmatch
      exact absurd hmatch (by decide)
    · simpa using h
  simp only [segmentTriggers]
  rw [hne, hmatch]
  rfl

/-- C5 (counterexample): the claim keys the history-destroying rules to the
*whole original command line*, but the code applies them per segment: the
command `"git\nclean -fd"` matches `\bgit\s+clean\b` as a whole line (`\s+`
spans the newline), yet the classifier splits at the newline into segments
`"git"` and `"clean -fd"`, neither of which matches or is a deletion
command, so it does NOT require approval. -/
theorem whole_line_pattern_match_not_flagged :
    matchesDestructiveGit "git\nclean -fd" = true ∧
    needs_discord_approval_bash shlexSplitPlain gTracked "git\nclean -fd" = false := by
  decide

/-- C5 (amended): if any *segment* of the command line (split on the
compound separators and stripped) matches one of the history-destroying
DestructiveCommandRules, classification is NEEDS_APPROVAL unconditionally —
no recoverability check (no git oracle) can downgrade it; in particular
`git reset --hard` is always NEEDS_APPROVAL even when the working tree is
clean, for every repository state. -/
theorem destructive_git_pattern_forces_approval
    (shlex : String → Option (List String)) (g g2 : GitEnv) (cmd seg : String)
    (hseg : seg ∈ splitSegments cmd)
    (hmatch : matchesDestructiveGit (pyStrip seg) = true) :
    needs_discord_approval_bash shlex g cmd = true ∧
    needs_discord_approval_bash shlex g2 "git reset --hard" = true := by
  constructor
  · unfold needs_discord_approval_bash
    exact List.any_eq_true.mpr ⟨seg, hseg, segmentTriggers_of_match shlex g seg hmatch⟩
  · unfold needs_discord_approval_bash
    refine List.any_eq_true.mpr ⟨"git reset --hard", by decide, ?_⟩
    exact segmentTriggers_of_match shlex g2 _ (by decide)

/-- Witness for C5's amended theorem: `git reset --hard` needs approval on a
clean tracked repository. -/
theorem destructive_git_pattern_forces_approval_witness :
    needs_discord_approval_bash shlexSplitPlain gTracked "git reset --hard" = true :=
  (destructive_git_pattern_forces_approval shlexSplitPlain gTracked gNoRepo
    "git reset --hard" "git reset --hard" (by decide) (by decide)).1

/-- C6: the command line is split on `||`, `&&`, `;`, `|` and newline into
independent segments, env-assignment and sudo prefixes are skipped before
the base command name is read, and the whole command needs approval as soon
as one segment has a destructive base command whose targets are not all
git-recoverable, regardless of neighboring safe segments; in particular
`ls && rm a.txt` with `a.txt` untracked is NEEDS_APPROVAL. -/
theorem compound_segment_forces_approval
    (shlex : String → Option (List String)) (g : GitEnv) (cmd seg : String)
    (hseg : seg ∈ splitSegments cmd)
    (t : String) (ts : List String)
    (htoks : skipEnvSudo (pySplitWs (pyStrip seg)) = t :: ts)
    (hdest : DESTRUCTIVE_COMMANDS.contains (basename t) = true)
    (hrec : all_git_recoverable g (parse_rm_targets (shlex (pyStrip seg))) = false) :
    needs_discord_approval_bash shlex g cmd = true ∧
    needs_discord_approval_bash shlexSplitPlain gUntracked "ls && rm a.txt" = true := by
  constructor
  · unfold needs_discord_approval_bash
    refine List.any_eq_true.mpr ⟨seg, hseg, ?_⟩
    have hne : (pyStrip seg == "") = false := by
      by_cases h : pyStrip seg = ""
      · rw [h] at htoks
        have hempty : skipEnvSudo (pySplitWs "") = [] := by decide
        rw [hempty] at htoks
        exact absurd htoks.symm (List.cons_ne_nil _ _)
      · simpa using h
    simp only [segmentTriggers, htoks, hne, hdest, hrec]
    cases matchesDestructiveGit (pyStrip seg) <;> rfl
  · decide

/-- Witness for C6 at the compound command from the spec. -/
theorem compound_segment_forces_approval_witness :
    needs_discord_approval_bash shlexSplitPlain gUntracked "ls && rm a.txt" = true :=
  (compound_segment_forces_approval shlexSplitPlain gUntracked "ls && rm a.txt"
    " rm a.txt" (by decide) "rm" ["a.txt"] (by decide) (by decide) (by decide)).1

/-- C4: the spec claims the recoverability check downgrades a deletion to
AUTO_ALLOW only if every target is inside the repository or does not exist,
and that any failed repository query resolves to not recoverable
(NEEDS_APPROVAL).  The code violates this: for `rm ../escape.txt`, where the
target resolves outside the repository and both `git ls-files` queries exit
with code 128 and empty stdout, the failed untracked-content query is
treated as "no untracked content" (the code only reacts to return code 0
with non-empty output), the tracked-content query result is never
inspected, and the deletion is classified recoverable — auto-allowed. -/
theorem failed_git_query_auto_allows :
    (gEscape.lsFilesOthers "../escape.txt").map GitProc.returncode = some 128 ∧
    all_git_recoverable gEscape ["../escape.txt"] = true ∧
    needs_discord_approval_bash shlexSplitPlain gEscape "rm ../escape.txt" = false := by
  decide

theorem threadLookup_set_self (l : List (String × Nat)) (sid : String) (tid : Nat) :
    threadLookup (threadSet l sid tid) sid = some tid := by
  simp [threadSet, threadLookup]

theorem setArchived_preserves_tid (rs : RouterState) (tid : Nat) (b : Bool) (n : Nat)
    (h : ∃ t, t ∈ rs.channelThreads ∧ t.tid = n) :
    ∃ t, t ∈ (setArchived rs tid b).channelThreads ∧ t.tid = n := by
  obtain ⟨t, ht, htid⟩ := h
  refine ⟨if t.tid == tid then {t with archived := b} else t, ?_, ?_⟩
  · exact List.mem_map_of_mem _ ht
  · split <;> simpa

theorem findExistingThread_spec (rs : RouterState) (nm : String) (tid : Nat)
    (rs1 : RouterState) (h : findExistingThread rs nm = some (tid, rs1)) :
    (∃ t, t ∈ rs1.channelThreads ∧ t.tid = tid) ∧
    rs1.sessionThreads = rs.sessionThreads ∧
    rs1.nextId = rs.nextId ∧
    rs1.channelThreads.length = rs.channelThreads.length := by
  unfold findExistingThread at h
  cases hact : (rs.channelThreads.filter (fun t => !t.archived)).find?
      (fun t => t.name == nm) with
  | some t =>
    rw [hact] at h
    have hmem : t ∈ rs.channelThreads :=
      List.mem_of_mem_filter (List.mem_of_find?_eq_some hact)
    injection h with h'
    injection h' with h1 h2
    subst h1
    subst h2
    by_cases harc : t.archived = true
    · rw [if_pos harc]
      exact ⟨setArchived_preserves_tid rs t.tid false t.tid ⟨t, hmem, rfl⟩,
        rfl, rfl, by simp [setArchived]⟩
    · rw [if_neg harc]
      exact ⟨⟨t, hmem, rfl⟩, rfl, rfl, rfl⟩
  | none =>
    rw [hact] at h
    cases harch : ((rs.channelThreads.filter (fun t => t.archived)).take 50).find?
        (fun t => t.name == nm) with
    | some t =>
      rw [harch] at h
      have hmem : t ∈ rs.channelThreads :=
        List.mem_of_mem_filter (List.mem_of_mem_take (List.mem_of_find?_eq_some harch))
      injection h with h'
      injection h' with h1 h2
      subst h1
      subst h2
      exact ⟨setArchived_preserves_tid rs t.tid false t.tid ⟨t, hmem, rfl⟩,
        rfl, rfl, by simp [setArchived]⟩
    | none =>
      rw [harch] at h
      exact absurd h (by simp)

theorem setArchived_sessionThreads (rs : RouterState) (tid : Nat) (b : Bool) :
    (setArchived rs tid b).sessionThreads = rs.sessionThreads := rfl

theorem getOrCreateFresh_binds (rs : RouterState) (sid title : String) :
    threadLookup (getOrCreateFresh rs sid title).2.sessionThreads sid
      = some (getOrCreateFresh rs sid title).1 ∧
    ∃ t, t ∈ (getOrCreateFresh rs sid title).2.channelThreads ∧
      t.tid = (getOrCreateFresh rs sid title).1 := by
  cases hf : findExistingThread rs (deriveThreadName sid title) with
  | none =>
    have heq : getOrCreateFresh rs sid title =
        (rs.nextId,
         { channelThreads :=
             rs.channelThreads ++ [⟨rs.nextId, deriveThreadName sid title, false⟩],
           nextId := rs.nextId + 1,
           sessionThreads := threadSet rs.sessionThreads sid rs.nextId }) := by
      simp only [getOrCreateFresh, hf]
    rw [heq]
    refine ⟨threadLookup_set_self ..,
      ⟨rs.nextId, deriveThreadName sid title, false⟩, ?_, rfl⟩
    simp
  | some pr =>
    obtain ⟨tid, rs1⟩ := pr
    obtain ⟨hmem, -, -, -⟩ := findExistingThread_spec rs _ tid rs1 hf
    have heq : getOrCreateFresh rs sid title =
        (tid, {rs1 with sessionThreads := threadSet rs1.sessionThreads sid tid}) := by
      simp only [getOrCreateFresh, hf]
    rw [heq]
    exact ⟨threadLookup_set_self .., hmem⟩

theorem getOrCreate_binds (rs : RouterState) (sid title : String) :
    threadLookup (getOrCreateThread rs sid title).2.sessionThreads sid
      = some (getOrCreateThread rs sid title).1 ∧
    ∃ t, t ∈ (getOrCreateThread rs sid title).2.channelThreads ∧
      t.tid = (getOrCreateThread rs sid title).1 := by
  cases hm : threadLookup rs.sessionThreads sid with
  | none =>
    have heq : getOrCreateThread rs sid title = getOrCreateFresh rs sid title := by
      simp only [getOrCreateThread, hm]
    rw [heq]
    exact getOrCreateFresh_binds rs sid title
  | some tid =>
    cases hf : findThreadById rs tid with
    | none =>
      have heq : getOrCreateThread rs sid title = getOrCreateFresh rs sid title := by
        simp only [getOrCreateThread, hm, hf]
      rw [heq]
      exact getOrCreateFresh_binds rs sid title
    | some t =>
      have hmem : t ∈ rs.channelThreads := List.mem_of_find?_eq_some hf
      have htid : t.tid = tid := by simpa using List.find?_some hf
      by_cases harc : t.archived = true
      · have heq : getOrCreateThread rs sid title = (tid, setArchived rs tid false) := by
          simp only [getOrCreateThread, hm, hf, harc]
          simp
        rw [heq]
        exact ⟨hm, setArchived_preserves_tid rs tid false tid ⟨t, hmem, htid⟩⟩
      · have harc' : t.archived = false := by
          cases h2 : t.archived
          · rfl
          · exact absurd h2 harc
        have heq : getOrCreateThread rs sid title = (tid, rs) := by
          simp only [getOrCreateThread, hm, hf, harc']
          simp
        rw [heq]
        exact ⟨hm, ⟨t, hmem, htid⟩⟩

theorem find_archived_by_id (l : List DThread) (tid : Nat)
    (h : ∃ t, t ∈ l ∧ t.tid = tid) :
    ∃ t', (l.map (fun t => if t.tid == tid then {t with archived := true} else t)).find?
        (fun t => t.tid == tid) = some t' ∧ t'.archived = true ∧ t'.tid = tid := by
  induction l with
  | nil =>
    obtain ⟨t, ht, _⟩ := h
    cases ht
  | cons x xs ih =>
    by_cases hx : x.tid = tid
    · refine ⟨{x with archived := true}, ?_, rfl, hx⟩
      rw [List.map_cons, if_pos (by simpa using hx)]
      exact List.find?_cons_of_pos _ (by simpa using hx)
    · obtain ⟨t, ht, htid⟩ := h
      rcases List.mem_cons.mp ht with rfl | hmem
      · exact absurd htid hx
      · obtain ⟨t', hfind, harc, htid'⟩ := ih ⟨t, hmem, htid⟩
        refine ⟨t', ?_, harc, htid'⟩
        rw [List.map_cons, if_neg (by simpa using hx),
          List.find?_cons_of_neg _ (by simpa using hx)]
        exact hfind

theorem getOrCreate_after_archive (rs : RouterState) (sid title : String) (tid : Nat)
    (h1 : threadLookup rs.sessionThreads sid = some tid)
    (h2 : ∃ t, t ∈ rs.channelThreads ∧ t.tid = tid) :
    (getOrCreateThread (setArchived rs tid true) sid title).1 = tid ∧
    (getOrCreateThread (setArchived rs tid true) sid title).2.nextId = rs.nextId ∧
    (getOrCreateThread (setArchived rs tid true) sid title).2.channelThreads.length
      = rs.channelThreads.length := by
  obtain ⟨t', hfind, harc, htid'⟩ := find_archived_by_id rs.channelThreads tid h2
  have hfid : findThreadById (setArchived rs tid true) tid = some t' := by
    simpa [findThreadById, setArchived] using hfind
  have heq : getOrCreateThread (setArchived rs tid true) sid title =
      (tid, setArchived (setArchived rs tid true) tid false) := by
    simp only [getOrCreateThread, setArchived_sessionThreads, h1, hfid, harc]
    simp
  rw [heq]
  refine ⟨rfl, rfl, ?_⟩
  simp [setArchived]

/-- C8 (counterexample): the claim asserts that an existing open *or
archived* thread whose name matches the derived title is reused rather than
a duplicate being created.  This fails beyond the lookup's
`archived_threads(limit=50)` window: in `rsBeyond` an archived thread named
`"T"` exists but 50 more recently listed archived threads precede it, so a
session with no cached binding gets a freshly created thread (id `100`,
present nowhere in the channel before), leaving two threads named `"T"`. -/
theorem archived_thread_beyond_window_duplicated :
    (∃ t, t ∈ rsBeyond.channelThreads ∧ t.name = deriveThreadName "s8c" "T" ∧
      t.archived = true) ∧
    (getOrCreateThread rsBeyond "s8c" "T").1 = 100 ∧
    (∀ t ∈ rsBeyond.channelThreads, t.tid ≠ 100) ∧
    (getOrCreateThread rsBeyond "s8c" "T").2.channelThreads.length =
      rsBeyond.channelThreads.length + 1 ∧
    ((getOrCreateThread rsBeyond "s8c" "T").2.channelThreads.filter
      (fun t => t.name == "T")).length = 2 := by
  decide

/-- C8 (amended): thread lookup is idempotent: resolving a session's thread,
letting the thread get archived (simulated auto-archive), then resolving
again for the same `session_id` and title yields the same thread id with no
new thread created; and for a session with no cached binding, an existing
open thread whose name matches the derived title — or an archived
name-matching thread among the 50 archived threads the lookup lists — is
reused (and, for the archived case, unarchived) rather than a duplicate
being created.  (An archived name match beyond that window is not reused;
see the counterexample.) -/
theorem resolve_thread_idempotent
    (rs : RouterState) (sid title : String) (rs' : RouterState)
    (sid' title' : String) (t0 : DThread)
    (hmap : threadLookup rs'.sessionThreads sid' = none)
    (hact : (rs'.channelThreads.filter (fun t => !t.archived)).find?
        (fun t => t.name == deriveThreadName sid' title') = some t0)
    (rs'' : RouterState) (sid'' title'' : String) (t1 : DThread)
    (hmap2 : threadLookup rs''.sessionThreads sid'' = none)
    (hact2 : (rs''.channelThreads.filter (fun t => !t.archived)).find?
        (fun t => t.name == deriveThreadName sid'' title'') = none)
    (harch2 : ((rs''.channelThreads.filter (fun t => t.archived)).take 50).find?
        (fun t => t.name == deriveThreadName sid'' title'') = some t1) :
    (getOrCreateThread (setArchived (getOrCreateThread rs sid title).2
        (getOrCreateThread rs sid title).1 true) sid title).1
      = (getOrCreateThread rs sid title).1 ∧
    (getOrCreateThread (setArchived (getOrCreateThread rs sid title).2
        (getOrCreateThread rs sid title).1 true) sid title).2.nextId
      = (getOrCreateThread rs sid title).2.nextId ∧
    (getOrCreateThread (setArchived (getOrCreateThread rs sid title).2
        (getOrCreateThread rs sid title).1 true) sid title).2.channelThreads.length
      = (getOrCreateThread rs sid title).2.channelThreads.length ∧
    (getOrCreateThread rs' sid' title').1 = t0.tid ∧
    (getOrCreateThread rs' sid' title').2.nextId = rs'.nextId ∧
    (getOrCreateThread rs' sid' title').2.channelThreads.length
      = rs'.channelThreads.length ∧
    (getOrCreateThread rs'' sid'' title'').1 = t1.tid ∧
    (getOrCreateThread rs'' sid'' title'').2.nextId = rs''.nextId ∧
    (getOrCreateThread rs'' sid'' title'').2.channelThreads.length
      = rs''.channelThreads.length := by
  obtain ⟨hb1, hb2⟩ := getOrCreate_binds rs sid title
  obtain ⟨ha1, ha2, ha3⟩ := getOrCreate_after_archive (getOrCreateThread rs sid title).2
    sid title (getOrCreateThread rs sid title).1 hb1 hb2
  have harc0 : t0.archived = false := by
    have := List.of_mem_filter (List.mem_of_find?_eq_some hact)
    simpa using this
  have hfound : findExistingThread rs' (deriveThreadName sid' title')
      = some (t0.tid, rs') := by
    simp only [findExistingThread, hact, harc0]
    simp
  have hsecond : getOrCreateThread rs' sid' title' =
      (t0.tid, {rs' with sessionThreads := threadSet rs'.sessionThreads sid' t0.tid}) := by
    simp only [getOrCreateThread, hmap, getOrCreateFresh, hfound]
  have hfound2 : findExistingThread rs'' (deriveThreadName sid'' title'')
      = some (t1.tid, setArchived rs'' t1.tid false) := by
    simp only [findExistingThread, hact2, harch2]
  have hthird : getOrCreateThread rs'' sid'' title'' =
      (t1.tid, {setArchived rs'' t1.tid false with
        sessionThreads := threadSet (setArchived rs'' t1.tid false).sessionThreads sid'' t1.tid}) := by
    simp only [getOrCreateThread, hmap2, getOrCreateFresh, hfound2]
  refine ⟨ha1, ha2, ha3, ?_, ?_, ?_, ?_, ?_, ?_⟩
  · rw [hsecond]
  · rw [hsecond]
  · rw [hsecond]
  · rw [hthird]
  · rw [hthird]
    rfl
  · rw [hthird]
    simp [setArchived]

/-- Witness for C8's amended theorem: an empty channel, a channel holding an
open `"T9"`-named thread, and a channel holding an archived `"TA"`-named
thread within the 50-thread window. -/
theorem resolve_thread_idempotent_witness :
    (getOrCreateThread (setArchived (getOrCreateThread ⟨[], 0, []⟩ "s8" "T8").2
        (getOrCreateThread ⟨[], 0, []⟩ "s8" "T8").1 true) "s8" "T8").1
      = (getOrCreateThread ⟨[], 0, []⟩ "s8" "T8").1 :=
  (resolve_thread_idempotent ⟨[], 0, []⟩ "s8" "T8"
    ⟨[⟨5, "T9", false⟩], 6, []⟩ "s9" "T9" ⟨5, "T9", false⟩
    (by decide) (by decide)
    ⟨[⟨7, "TA", true⟩], 9, []⟩ "sa" "TA" ⟨7, "TA", true⟩
    (by decide) (by decide) (by decide)).1
